import Mathlib

/-!
Shallow embedding of the party-parrot lighting-controller excerpt:
`parrot/fixtures/base.py`, `parrot/fixtures/shenzhen/generic_chinese_mh.py`,
`parrot/utils/dmx_utils.py` and `parrot/patch_bay.py`.

Python numeric values (ints and floats) are modelled as exact rationals
(`ℚ`); DMX byte values, which the source always produces through `int(...)`
or integer table entries, are modelled as `ℤ`.  Python `int(x)` truncates
toward zero, which `pyInt` reproduces.  `ℚ` has no NaN, so the
`math.isnan` guard inside `dmx_clamp` has no corresponding branch here
(the clamp contract of the spec on non-NaN inputs is unchanged by this).
-/

namespace PartyParrot

/-- Python `int(x)` on a real value: truncation toward zero. -/
def pyInt (q : ℚ) : ℤ := if q < 0 then -(⌊-q⌋) else ⌊q⌋

/-- Modelled from the spec: the numeric clamp helper `clamp` from
`parrot.utils.math` (its body is not part of the excerpt); per the spec the
byte clamp "maps any numeric input to an integer in [0, 255]", so `clamp
n lo hi` confines `n` to `[lo, hi]`. -/
def clampQ (n lo hi : ℚ) : ℚ := max lo (min n hi)

/-- `dmx_clamp` from `parrot/utils/dmx_utils.py`: `int(clamp(n, 0, 255))`.
The `math.isnan(n)` branch has no counterpart for `ℚ` inputs. -/
def dmx_clamp (n : ℚ) : ℤ := pyInt (clampQ n 0 255)

/-- The `Universe` enum of `dmx_utils.py`; one variant `default = "art1"`. -/
inductive Universe where
  | default
  deriving DecidableEq

/-- The named colors this excerpt constructs via the external `Color`
type (spec section 6 lists exactly these names). -/
inductive PColor where
  | black
  | white
  | red
  | green
  | blue
  | yellow
  | orange
  | cyan
  | purple
  | magenta
  deriving DecidableEq

/-- State of a `FixtureBase` instance (`parrot/fixtures/base.py`).  The
`name`, `x`, `y` fields play no role in any claim and are omitted;
`values` holds the per-channel output values. -/
structure FixtureBase where
  address : ℤ
  width : ℕ
  univ : Universe
  values : List ℚ
  color_value : PColor
  dimmer_value : ℚ
  strobe_value : ℚ
  speed_value : ℚ
  deriving DecidableEq

/-- `FixtureBase.__init__`: zeroed value array of length `width`, color
black, dimmer/strobe/speed 0. -/
def mkFixtureBase (address : ℤ) (width : ℕ) (univ : Universe) : FixtureBase :=
  { address := address
    width := width
    univ := univ
    values := List.replicate width 0
    color_value := PColor.black
    dimmer_value := 0
    strobe_value := 0
    speed_value := 0 }

/-- `FixtureBase.set_color`. -/
def FixtureBase.set_color (f : FixtureBase) (color : PColor) : FixtureBase :=
  { f with color_value := color }

/-- `FixtureBase.get_color`. -/
def FixtureBase.get_color (f : FixtureBase) : PColor := f.color_value

/-- `FixtureBase.set_dimmer`. -/
def FixtureBase.set_dimmer (f : FixtureBase) (value : ℚ) : FixtureBase :=
  { f with dimmer_value := value }

/-- `FixtureBase.get_dimmer`. -/
def FixtureBase.get_dimmer (f : FixtureBase) : ℚ := f.dimmer_value

/-- `FixtureBase.begin`: per-frame reset, clears strobe to 0. -/
def FixtureBase.begin (f : FixtureBase) : FixtureBase :=
  { f with strobe_value := 0 }

/-- `FixtureBase.set_strobe`: `self.strobe_value = max(self.strobe_value, value)`. -/
def FixtureBase.set_strobe (f : FixtureBase) (value : ℚ) : FixtureBase :=
  { f with strobe_value := max f.strobe_value value }

/-- `FixtureBase.get_strobe`. -/
def FixtureBase.get_strobe (f : FixtureBase) : ℚ := f.strobe_value

/-- `FixtureBase.set_pan`: a no-op at the base level. -/
def FixtureBase.set_pan (f : FixtureBase) (_value : ℚ) : FixtureBase := f

/-- `FixtureBase.set_tilt`: a no-op at the base level. -/
def FixtureBase.set_tilt (f : FixtureBase) (_value : ℚ) : FixtureBase := f

/-- `FixtureBase.set_speed`. -/
def FixtureBase.set_speed (f : FixtureBase) (value : ℚ) : FixtureBase :=
  { f with speed_value := value }

/-- One observable call made by `FixtureBase.render` on the transport:
either `dmx.set_channel(address, value, universe=...)` or `dmx.submit()`. -/
inductive DmxEvent where
  | setChannel (address : ℤ) (value : ℤ) (univ : Universe)
  | submit
  deriving DecidableEq

/-- The loop body of `FixtureBase.render`, indexed by the loop counter
`i`: for each remaining value, if `address + i > 512` the loop breaks
(emitting nothing further), otherwise it emits one `set_channel` with the
clamped value immediately followed by one `submit`. -/
def renderFrom (address : ℤ) (u : Universe) (i : ℕ) : List ℚ → List DmxEvent
  | [] => []
  | v :: vs =>
    if address + i > 512 then []
    else DmxEvent.setChannel (address + i) (dmx_clamp v) u ::
         DmxEvent.submit :: renderFrom address u (i + 1) vs

/-- `FixtureBase.render`: the full sequence of transport calls it makes. -/
def FixtureBase.render (f : FixtureBase) : List DmxEvent :=
  renderFrom f.address f.univ 0 f.values

/-- The per-channel call sequence the spec describes: for every entry of
`values` (index `i`, value `v`), one `set_channel(address + i, dmx_clamp v)`
followed by one `submit`. -/
def expectedTrace (address : ℤ) (u : Universe) (values : List ℚ) : List DmxEvent :=
  (values.enum.map
    (fun p => [DmxEvent.setChannel (address + p.1) (dmx_clamp p.2) u, DmxEvent.submit])).flatten

theorem renderFrom_eq_expected (address : ℤ) (u : Universe) :
    ∀ (vs : List ℚ) (i : ℕ),
      renderFrom address u i vs =
        (((vs.take (513 - address - i).toNat).enumFrom i).map
          (fun p => [DmxEvent.setChannel (address + p.1) (dmx_clamp p.2) u, DmxEvent.submit])).flatten := by
  intro vs
  induction vs with
  | nil => intro i; simp [renderFrom]
  | cons v vs ih =>
    intro i
    by_cases h : address + i > 512
    · have hz : (513 - address - (i : ℤ)).toNat = 0 := by omega
      simp [renderFrom, h, hz]
    · have hs : (513 - address - (i : ℤ)).toNat = (513 - address - ((i : ℤ) + 1)).toNat + 1 := by
        omega
      rw [renderFrom, if_neg h, hs]
      simp only [List.take_succ_cons, List.enumFrom, List.map_cons, List.flatten_cons]
      rw [ih (i + 1)]
      push_cast
      rfl

/-- C4: for a fixture at address `a ≥ 1` with `w = len(values)`, `render`
emits exactly `w` `set_channel` calls at addresses `a..a+w-1` on the
universe of the fixture, each with the `dmx_clamp` of the corresponding value
and each immediately followed by one `submit`; when `a + w - 1 > 512` it
emits them only for addresses up to 512 and then stops, with no wraparound
and no exception (the trace function is total). -/
theorem C4_render_trace (f : FixtureBase) (w : ℕ)
    (hw : f.values.length = w) (ha : 1 ≤ f.address) :
    (f.address + w - 1 ≤ 512 →
      f.render = expectedTrace f.address f.univ f.values)
    ∧ (512 < f.address + w - 1 →
      f.render = expectedTrace f.address f.univ (f.values.take (513 - f.address).toNat)) := by
  have hbase := renderFrom_eq_expected f.address f.univ f.values 0
  constructor
  · intro hle
    have htake : f.values.take (513 - f.address - (0 : ℕ)).toNat = f.values := by
      apply List.take_of_length_le
      omega
    rw [FixtureBase.render, hbase, htake]
    rfl
  · intro hgt
    have harg : (513 - f.address - ((0 : ℕ) : ℤ)).toNat = (513 - f.address).toNat := by
      omega
    rw [FixtureBase.render, hbase, harg]
    rfl

theorem C4_witness :
    FixtureBase.render (mkFixtureBase 3 4 Universe.default) =
      expectedTrace 3 Universe.default (List.replicate 4 (0 : ℚ))
    ∧ FixtureBase.render (mkFixtureBase 510 5 Universe.default) =
      expectedTrace 510 Universe.default
        ((List.replicate 5 (0 : ℚ)).take ((513 : ℤ) - 510).toNat) := by
  constructor
  · exact (C4_render_trace (mkFixtureBase 3 4 Universe.default) 4
      (by simp [mkFixtureBase]) (by decide)).1 (by decide)
  · exact (C4_render_trace (mkFixtureBase 510 5 Universe.default) 5
      (by simp [mkFixtureBase]) (by decide)).2 (by decide)
/-- `ColorWheelEntry` from `parrot/fixtures/base.py`: pairs a Color with
the DMX value selecting it on the physical color wheel. -/
structure ColorWheelEntry where
  color : PColor
  dmx_value : ℤ
  deriving DecidableEq

/-- `GoboWheelEntry` from `parrot/fixtures/base.py`: pairs a gobo pattern
name with its DMX value. -/
structure GoboWheelEntry where
  name : String
  dmx_value : ℤ
  deriving DecidableEq

/-- `GenericChineseMovingHead10ch.COLOR_WHEEL_ENTRIES`. -/
def COLOR_WHEEL_ENTRIES : List ColorWheelEntry :=
  [⟨PColor.white, 0⟩, ⟨PColor.red, 10⟩, ⟨PColor.green, 20⟩, ⟨PColor.blue, 30⟩,
   ⟨PColor.yellow, 40⟩, ⟨PColor.orange, 50⟩, ⟨PColor.cyan, 60⟩,
   ⟨PColor.purple, 70⟩, ⟨PColor.magenta, 80⟩]

/-- `GenericChineseMovingHead10ch.GOBO_WHEEL_ENTRIES`. -/
def GOBO_WHEEL_ENTRIES : List GoboWheelEntry :=
  [⟨"open", 65⟩, ⟨"dots", 72⟩, ⟨"spiral", 80⟩, ⟨"spiral2", 88⟩,
   ⟨"starburst", 96⟩, ⟨"four", 104⟩, ⟨"waves", 112⟩, ⟨"biohazard", 120⟩,
   ⟨"ring", 128⟩, ⟨"flower", 136⟩]

/-- `GenericChineseMovingHead10ch.GOBO_PATTERN_RANGES` (a dict from
pattern name to an inclusive DMX range). -/
def GOBO_PATTERN_RANGES : List (String × ℤ × ℤ) :=
  [("Backgammon 1", 0, 31), ("Backgammon 2", 32, 63), ("Backgammon 3", 64, 95),
   ("Backgammon 4", 96, 127), ("Backgammon 5", 128, 159),
   ("Backgammon 6", 160, 191), ("Backgammon 7", 192, 223),
   ("Open", 224, 231), ("Backgammon Flow", 232, 247), ("5-Ball Shake", 248, 255)]

/-- State of a `GenericChineseMovingHead10ch` instance
(`parrot/fixtures/shenzhen/generic_chinese_mh.py`).  The fields prefixed
with an underscore in Python keep their names without the underscore. -/
structure GenericChineseMovingHead10ch where
  address : ℤ
  univ : Universe
  values : List ℚ
  color_value : PColor
  dimmer_value : ℚ
  strobe_value : ℚ
  speed_value : ℚ
  pan_dmx : ℤ
  tilt_dmx : ℤ
  color_wheel_dmx : ℤ
  gobo_wheel_dmx : ℤ
  strobe_dmx : ℤ
  dimmer_dmx : ℤ
  speed_dmx : ℤ
  auto_mode_dmx : ℤ
  auto_swivel_dmx : ℤ
  led_ring_dmx : ℤ
  current_gobo_index : ℕ
  deriving DecidableEq

/-- `GenericChineseMovingHead10ch.__init__`: width 10, zeroed channel
state; the inherited `FixtureBase` state starts as for `mkFixtureBase`. -/
def mkGenericMH (address : ℤ) (univ : Universe) : GenericChineseMovingHead10ch :=
  { address := address
    univ := univ
    values := List.replicate 10 0
    color_value := PColor.black
    dimmer_value := 0
    strobe_value := 0
    speed_value := 0
    pan_dmx := 0
    tilt_dmx := 0
    color_wheel_dmx := 0
    gobo_wheel_dmx := 0
    strobe_dmx := 0
    dimmer_dmx := 0
    speed_dmx := 0
    auto_mode_dmx := 0
    auto_swivel_dmx := 0
    led_ring_dmx := 0
    current_gobo_index := 0 }

/-- The linear scan inside `set_color`: starting from candidate `b`, take
each later entry whose distance is strictly smaller (so ties keep the
earlier entry).  In Python the scan starts from `closest = None` with
distance infinity; the first entry always replaces `None` because every
distance is finite, which the nonempty-list wrapper `scanClosest`
reflects. -/
def runMin {α : Type} (f : α → ℚ) (b : α) : List α → α
  | [] => b
  | e :: rest => if f e < f b then runMin f e rest else runMin f b rest

/-- The `for entry in self.COLOR_WHEEL_ENTRIES` closest-entry scan of
`set_color` (`None` for an empty table). -/
def scanClosest {α : Type} (f : α → ℚ) : List α → Option α
  | [] => none
  | e :: rest => some (runMin f e rest)

/-- Insertion step of a stable sort on the second (distance) component:
an element is placed before the first element that is not strictly
smaller, so earlier elements win ties — the behavior of the stable Python
`list.sort(key=...)`. -/
def insertByDist {α : Type} (x : α × ℚ) : List (α × ℚ) → List (α × ℚ)
  | [] => [x]
  | y :: ys => if y.2 < x.2 then y :: insertByDist x ys else x :: y :: ys

/-- Stable sort by distance used by `distances.sort(key=lambda x: x[1])`. -/
def sortByDist {α : Type} : List (α × ℚ) → List (α × ℚ)
  | [] => []
  | x :: xs => insertByDist x (sortByDist xs)

/-- The color-wheel DMX value `set_color` computes for a requested
color, parametric in the external `color_distance` metric `d` (from
`parrot.utils.color_extra`, whose body is not part of the excerpt): the
DMX value of the closest wheel entry when within the 0.1 threshold, otherwise
a split-mode value interpolated between the two closest entries (or the
fallbacks of the source for an empty or short table). -/
def colorWheelDmxFor (d : PColor → PColor → ℚ) (color : PColor) : ℤ :=
  match scanClosest (fun e => d e.color color) COLOR_WHEEL_ENTRIES with
  | none => 0
  | some closest =>
    let closest_distance := d closest.color color
    if closest_distance < 1 / 10 then closest.dmx_value
    else
      let distances :=
        sortByDist (COLOR_WHEEL_ENTRIES.map (fun e => (e, d e.color color)))
      match distances with
      | (_, first_dist) :: (_, second_dist) :: _ =>
        let total_dist := first_dist + second_dist
        if 0 < total_dist then
          pyInt (128 + (255 - 128) * (first_dist / total_dist))
        else closest.dmx_value
      | _ => closest.dmx_value

/-- `GenericChineseMovingHead10ch.set_color`: store the logical color
through the inherited base setter and write the computed color-wheel DMX
value into the channel state. -/
def GenericChineseMovingHead10ch.set_color (d : PColor → PColor → ℚ)
    (s : GenericChineseMovingHead10ch) (color : PColor) :
    GenericChineseMovingHead10ch :=
  { s with color_value := color, color_wheel_dmx := colorWheelDmxFor d color }

/-- `GenericChineseMovingHead10ch.set_dimmer`: stores the dimmer intent
via the base setter and byte-clamps into the dimmer channel. -/
def GenericChineseMovingHead10ch.set_dimmer (s : GenericChineseMovingHead10ch)
    (value : ℚ) : GenericChineseMovingHead10ch :=
  { s with dimmer_value := value, dimmer_dmx := dmx_clamp value }

/-- `GenericChineseMovingHead10ch.set_strobe`: `super().set_strobe(value)`
(maximum into `strobe_value`) and then `self._strobe_dmx = dmx_clamp(value)`
(last write wins on the channel). -/
def GenericChineseMovingHead10ch.set_strobe (s : GenericChineseMovingHead10ch)
    (value : ℚ) : GenericChineseMovingHead10ch :=
  { s with strobe_value := max s.strobe_value value, strobe_dmx := dmx_clamp value }

/-- `GenericChineseMovingHead10ch.set_speed`. -/
def GenericChineseMovingHead10ch.set_speed (s : GenericChineseMovingHead10ch)
    (value : ℚ) : GenericChineseMovingHead10ch :=
  { s with speed_value := value, speed_dmx := dmx_clamp value }

/-- The inherited `FixtureBase.begin` on the moving head: it clears the
stored `strobe_value` only (no override exists in the excerpt, so the
channel state is untouched). -/
def GenericChineseMovingHead10ch.begin (s : GenericChineseMovingHead10ch) :
    GenericChineseMovingHead10ch :=
  { s with strobe_value := 0 }

/-- `GenericChineseMovingHead10ch.set_gobo`: exact-name scan of the gobo
table; unknown names raise `ValueError` (modelled as `Except.error`)
before any state is written.  For a known name the gobo index is set and
the channel gets the pattern-range start (the range lookup by the
lowercase wheel name against the capitalised `GOBO_PATTERN_RANGES` keys
always misses, falling back to the own DMX value of the entry) or, for
positive speed, a swivel value in 128–255. -/
def GenericChineseMovingHead10ch.set_gobo (s : GenericChineseMovingHead10ch)
    (gobo_name : String) (speed : ℚ) :
    Except String GenericChineseMovingHead10ch :=
  match GOBO_WHEEL_ENTRIES.find? (fun e => e.name = gobo_name) with
  | none => Except.error ("Gobo " ++ gobo_name ++ " not found")
  | some gobo_entry =>
    let pattern_range := (GOBO_PATTERN_RANGES.find? (fun p => p.1 = gobo_name)).map Prod.snd
    let s := { s with current_gobo_index :=
        GOBO_WHEEL_ENTRIES.findIdx (fun e => e = gobo_entry) }
    if speed ≤ 0 then
      match pattern_range with
      | some pr => Except.ok { s with gobo_wheel_dmx := pr.1 }
      | none => Except.ok { s with gobo_wheel_dmx := gobo_entry.dmx_value }
    else
      let speed_clamped := max 0 (min 1 speed)
      Except.ok { s with gobo_wheel_dmx := pyInt (128 + (255 - 128) * speed_clamped) }

/-- `GenericChineseMovingHead10ch.set_auto_mode`. -/
def GenericChineseMovingHead10ch.set_auto_mode (s : GenericChineseMovingHead10ch)
    (value : ℚ) : GenericChineseMovingHead10ch :=
  { s with auto_mode_dmx := dmx_clamp value }

/-- `GenericChineseMovingHead10ch.set_auto_swivel`. -/
def GenericChineseMovingHead10ch.set_auto_swivel (s : GenericChineseMovingHead10ch)
    (value : ℚ) : GenericChineseMovingHead10ch :=
  { s with auto_swivel_dmx := dmx_clamp value }

/-- `GenericChineseMovingHead10ch.set_led_ring`. -/
def GenericChineseMovingHead10ch.set_led_ring (s : GenericChineseMovingHead10ch)
    (value : ℚ) : GenericChineseMovingHead10ch :=
  { s with led_ring_dmx := dmx_clamp value }

/-- Modelled from the spec: the default pan bounds of the moving-head
family — 270°–450° of a 540° total sweep, converted at construction into
the DMX domain via `lower_dmx = lower_deg / total_deg * 255`. -/
def pan_lower_dmx : ℚ := 270 / 540 * 255

/-- Modelled from the spec: `range_dmx = upper_dmx - lower_dmx` for the
default pan bounds. -/
def pan_range_dmx : ℚ := 450 / 540 * 255 - 270 / 540 * 255

/-- Modelled from the spec: `set_pan` of the moving-head family (the
`MovingHead` base class body is not part of the excerpt): the 0–255
caller value is projected into the configured sub-range
`projected = pan_lower_dmx + pan_range_dmx * value / 255`, converted to
an absolute angle `projected / 255 * 540` degrees, and handed to the
base angle setter, which owns the coarse pan channel and stores the
byte-truncated value `int(angle / 540 * 255)`. -/
def GenericChineseMovingHead10ch.set_pan (s : GenericChineseMovingHead10ch)
    (value : ℚ) : GenericChineseMovingHead10ch :=
  let projected := pan_lower_dmx + pan_range_dmx * value / 255
  let angle := projected / 255 * 540
  { s with pan_dmx := pyInt (angle / 540 * 255) }

/-- Modelled from the spec: `set_tilt`, symmetric to `set_pan` with the
default tilt bounds 0°–90° of a 270° total sweep. -/
def GenericChineseMovingHead10ch.set_tilt (s : GenericChineseMovingHead10ch)
    (value : ℚ) : GenericChineseMovingHead10ch :=
  let projected := 0 / 270 * 255 + (90 / 270 * 255 - 0 / 270 * 255) * value / 255
  let angle := projected / 255 * 270
  { s with tilt_dmx := pyInt (angle / 270 * 255) }

/-- `GenericChineseMovingHead10ch.render`: write all internal channel
state into the 10-slot value array (one indexed assignment per channel,
as in the source), then delegate to `FixtureBase.render`; the result is
the updated state together with the transport call trace. -/
def GenericChineseMovingHead10ch.render (s : GenericChineseMovingHead10ch) :
    GenericChineseMovingHead10ch × List DmxEvent :=
  let values := ((((((((((s.values.set 0 (s.pan_dmx : ℚ)).set 1 (s.tilt_dmx : ℚ)).set 2
    (s.color_wheel_dmx : ℚ)).set 3 (s.gobo_wheel_dmx : ℚ)).set 4
    (s.strobe_dmx : ℚ)).set 5 (s.dimmer_dmx : ℚ)).set 6 (s.speed_dmx : ℚ)).set 7
    (s.auto_mode_dmx : ℚ)).set 8 (s.auto_swivel_dmx : ℚ)).set 9 (s.led_ring_dmx : ℚ))
  let s2 := { s with values := values }
  (s2, renderFrom s2.address s2.univ 0 s2.values)
/-- The minimum requested-color distance over the candidate `b` and the
remaining table `l`, as the spec words it ("minimum distance"). -/
def listMinQ {α : Type} (f : α → ℚ) (b : α) (l : List α) : ℚ :=
  l.foldl (fun m e => min m (f e)) (f b)

/-- The nearest-entry semantics as the spec words it: the first element of `b :: l`
whose distance equals the minimum distance (ties broken by first in
table order). -/
def specFirstMin {α : Type} (f : α → ℚ) (b : α) (l : List α) : α :=
  ((b :: l).find? (fun e => decide (f e = listMinQ f b l))).getD b

theorem foldl_min_le_init {α β : Type} [LinearOrder β] (f : α → β) :
    ∀ (l : List α) (i : β), l.foldl (fun m e => min m (f e)) i ≤ i := by
  intro l
  induction l with
  | nil => intro i; exact le_refl i
  | cons e rest ih =>
    intro i
    calc (e :: rest).foldl (fun m e => min m (f e)) i
        = rest.foldl (fun m e => min m (f e)) (min i (f e)) := by rw [List.foldl_cons]
      _ ≤ min i (f e) := ih _
      _ ≤ i := min_le_left _ _

theorem foldl_min_le_mem {α β : Type} [LinearOrder β] (f : α → β) :
    ∀ (l : List α) (i : β) (x : α), x ∈ l →
      l.foldl (fun m e => min m (f e)) i ≤ f x := by
  intro l
  induction l with
  | nil => intro i x hx; cases hx
  | cons e rest ih =>
    intro i x hx
    rw [List.foldl_cons]
    rcases List.mem_cons.mp hx with h | h
    · subst h
      calc rest.foldl (fun m e => min m (f e)) (min i (f x))
          ≤ min i (f x) := foldl_min_le_init f rest _
        _ ≤ f x := min_le_right _ _
    · exact ih _ x h

theorem listMinQ_le {α : Type} (f : α → ℚ) (b : α) (l : List α) :
    ∀ x ∈ b :: l, listMinQ f b l ≤ f x := by
  intro x hx
  rcases List.mem_cons.mp hx with h | h
  · subst h; exact foldl_min_le_init f l (f x)
  · exact foldl_min_le_mem f l (f b) x h

theorem listMinQ_le_base {α : Type} (f : α → ℚ) (b : α) (l : List α) :
    listMinQ f b l ≤ f b :=
  foldl_min_le_init f l (f b)

theorem foldl_min_attained {α β : Type} [LinearOrder β] (f : α → β) :
    ∀ (l : List α) (i : β),
      l.foldl (fun m e => min m (f e)) i = i
      ∨ ∃ x ∈ l, l.foldl (fun m e => min m (f e)) i = f x := by
  intro l
  induction l with
  | nil => intro i; exact Or.inl rfl
  | cons e rest ih =>
    intro i
    rw [List.foldl_cons]
    rcases ih (min i (f e)) with h | ⟨x, hx, hfx⟩
    · by_cases hle : i ≤ f e
      · exact Or.inl (h.trans (min_eq_left hle))
      · exact Or.inr ⟨e, List.mem_cons_self e rest,
          h.trans (min_eq_right (le_of_not_le hle))⟩
    · exact Or.inr ⟨x, List.mem_cons_of_mem e hx, hfx⟩

theorem listMinQ_attained {α : Type} (f : α → ℚ) (b : α) (l : List α) :
    ∃ x ∈ b :: l, f x = listMinQ f b l := by
  rcases foldl_min_attained f l (f b) with h | ⟨x, hx, hfx⟩
  · exact ⟨b, List.mem_cons_self b l, h.symm⟩
  · exact ⟨x, List.mem_cons_of_mem b hx, hfx.symm⟩

theorem runMin_eq_specFirstMin {α : Type} (f : α → ℚ) :
    ∀ (l : List α) (b : α), runMin f b l = specFirstMin f b l := by
  intro l
  induction l with
  | nil =>
    intro b
    simp [runMin, specFirstMin, listMinQ, List.find?]
  | cons e rest ih =>
    intro b
    have hmins : listMinQ f b (e :: rest) =
        listMinQ f (if f e < f b then e else b) rest := by
      by_cases h : f e < f b
      · simp only [listMinQ, List.foldl_cons, h, if_true]
        rw [min_eq_right (le_of_lt h)]
      · simp only [listMinQ, List.foldl_cons, h, if_false]
        rw [min_eq_left (le_of_not_lt h)]
    by_cases h : f e < f b
    · rw [runMin, if_pos h, ih e]
      have hM : listMinQ f b (e :: rest) = listMinQ f e rest := by
        rw [hmins, if_pos h]
      have hb : ¬ (f b = listMinQ f e rest) := by
        intro heq
        have h1 := listMinQ_le_base f e rest
        linarith
      obtain ⟨x, hx, hfx⟩ := listMinQ_attained f e rest
      have hfind : ((e :: rest).find?
          (fun y => decide (f y = listMinQ f e rest))).isSome :=
        List.find?_isSome.mpr ⟨x, hx, decide_eq_true hfx⟩
      obtain ⟨y, hy⟩ := Option.isSome_iff_exists.mp hfind
      simp only [specFirstMin, hM]
      rw [List.find?_cons_of_neg (e :: rest) (by simpa using hb), hy]
      rfl
    · rw [runMin, if_neg h, ih b]
      have hM : listMinQ f b (e :: rest) = listMinQ f b rest := by
        rw [hmins, if_neg h]
      by_cases hb : f b = listMinQ f b rest
      · simp only [specFirstMin, hM]
        rw [List.find?_cons_of_pos rest (by simpa using hb),
          List.find?_cons_of_pos (e :: rest) (by simpa using hb)]
      · have hble : f b ≤ f e := le_of_not_lt h
        have hMle := listMinQ_le_base f b rest
        have he : ¬ (f e = listMinQ f b rest) := by
          intro heq
          exact hb (le_antisymm (heq ▸ hble) hMle)
        simp only [specFirstMin, hM]
        rw [List.find?_cons_of_neg rest (by simpa using hb),
          List.find?_cons_of_neg (e :: rest) (by simpa using hb),
          List.find?_cons_of_neg rest (by simpa using he)]
theorem f_specFirstMin {α : Type} (f : α → ℚ) (b : α) (l : List α) :
    f (specFirstMin f b l) = listMinQ f b l := by
  obtain ⟨x, hx, hfx⟩ := listMinQ_attained f b l
  have hfind : ((b :: l).find? (fun y => decide (f y = listMinQ f b l))).isSome :=
    List.find?_isSome.mpr ⟨x, hx, decide_eq_true hfx⟩
  obtain ⟨y, hy⟩ := Option.isSome_iff_exists.mp hfind
  have hpy := List.find?_some hy
  simp only [specFirstMin, hy, Option.getD_some]
  exact of_decide_eq_true hpy

/-- The color-wheel DMX value of the minimum-distance entry, worded as
the spec does: by minimum distance over the table, ties broken by the
first entry in table order. -/
def specNearestDmx (d : PColor → PColor → ℚ) (color : PColor) : ℤ :=
  match COLOR_WHEEL_ENTRIES with
  | [] => 0
  | b :: rest => (specFirstMin (fun e => d e.color color) b rest).dmx_value

/-- C1 (amended): whenever some color-wheel entry is within the 0.1
exact-match threshold of the requested color, `set_color` writes the DMX
value of the minimum-distance entry (ties broken by first entry in table
order) to the color-wheel channel.  (For more distant colors the code
instead writes a split-mode value in the 128–255 range, which is what
`C1_counterexample` exhibits.) -/
theorem C1_color_nearest (d : PColor → PColor → ℚ)
    (s : GenericChineseMovingHead10ch) (color : PColor)
    (h : ∃ e ∈ COLOR_WHEEL_ENTRIES, d e.color color < 1 / 10) :
    (GenericChineseMovingHead10ch.set_color d s color).color_wheel_dmx =
      specNearestDmx d color := by
  obtain ⟨e, he, hde⟩ := h
  have hmin : listMinQ (fun e => d e.color color) ⟨PColor.white, 0⟩
      (COLOR_WHEEL_ENTRIES.tail) < 1 / 10 := by
    have hle := listMinQ_le (fun e => d e.color color) ⟨PColor.white, 0⟩
      (COLOR_WHEEL_ENTRIES.tail) e (by simpa [COLOR_WHEEL_ENTRIES] using he)
    exact lt_of_le_of_lt hle hde
  simp only [GenericChineseMovingHead10ch.set_color, colorWheelDmxFor,
    COLOR_WHEEL_ENTRIES, scanClosest, specNearestDmx, runMin_eq_specFirstMin]
  rw [if_pos]
  have hf := f_specFirstMin (fun e => d e.color color) (⟨PColor.white, 0⟩ : ColorWheelEntry)
    [⟨PColor.red, 10⟩, ⟨PColor.green, 20⟩, ⟨PColor.blue, 30⟩,
     ⟨PColor.yellow, 40⟩, ⟨PColor.orange, 50⟩, ⟨PColor.cyan, 60⟩,
     ⟨PColor.purple, 70⟩, ⟨PColor.magenta, 80⟩]
  rw [hf]
  simpa [COLOR_WHEEL_ENTRIES, List.tail] using hmin

/-- Per-component distance `|a - b|` written with an explicit comparison
so that concrete instances evaluate by case analysis. -/
def compDist (a b : ℚ) : ℚ := if a ≤ b then b - a else a - b

/-- Modelled from the spec: RGB coordinates for the named colors of the
external `Color` contract (unit-cube components). -/
def rgb : PColor → ℚ × ℚ × ℚ
  | PColor.black => (0, 0, 0)
  | PColor.white => (1, 1, 1)
  | PColor.red => (1, 0, 0)
  | PColor.green => (0, 1, 0)
  | PColor.blue => (0, 0, 1)
  | PColor.yellow => (1, 1, 0)
  | PColor.orange => (1, 1 / 2, 0)
  | PColor.cyan => (0, 1, 1)
  | PColor.purple => (1 / 2, 0, 1 / 2)
  | PColor.magenta => (1, 0, 1)

/-- Modelled from the spec: a concrete admissible instance of the
external `color_distance` contract (construct-from-name colors compared
by a distance metric) — the L1 distance between RGB coordinates. -/
def dEx (x y : PColor) : ℚ :=
  compDist (rgb x).1 (rgb y).1 + compDist (rgb x).2.1 (rgb y).2.1 +
    compDist (rgb x).2.2 (rgb y).2.2

theorem C1_witness :
    (GenericChineseMovingHead10ch.set_color dEx
      (mkGenericMH 1 Universe.default) PColor.red).color_wheel_dmx = 10 := by
  have h := C1_color_nearest dEx (mkGenericMH 1 Universe.default) PColor.red
    ⟨⟨PColor.red, 10⟩, by norm_num [COLOR_WHEEL_ENTRIES],
      by norm_num [dEx, rgb, compDist]⟩
  rw [h]
  norm_num [specNearestDmx, COLOR_WHEEL_ENTRIES, specFirstMin, listMinQ,
    dEx, rgb, compDist, List.find?, List.foldl, min_def]

theorem C1_counterexample :
    (GenericChineseMovingHead10ch.set_color dEx
      (mkGenericMH 1 Universe.default) PColor.black).color_wheel_dmx ≠
      specNearestDmx dEx PColor.black := by
  norm_num [GenericChineseMovingHead10ch.set_color, colorWheelDmxFor,
    COLOR_WHEEL_ENTRIES, scanClosest, runMin, sortByDist, insertByDist,
    specNearestDmx, specFirstMin, listMinQ, dEx, rgb, compDist, pyInt,
    min_def, List.find?, List.foldl]
/-- C2: on the generic moving head with the default pan bounds
(270°–450° of a 540° sweep), `set_pan(255)` puts the DMX value for 450°
(`int(450/540*255) = 212`) on the pan channel — offset 0 of the rendered
value array — and `set_pan(0)` the value for 270° (`int(270/540*255) =
127`). -/
theorem C2_pan_bounds :
    (((GenericChineseMovingHead10ch.set_pan
        (mkGenericMH 1 Universe.default) 255).render.1.values.get? 0 =
      some ((pyInt (450 / 540 * 255) : ℤ) : ℚ))
    ∧ ((GenericChineseMovingHead10ch.set_pan
        (mkGenericMH 1 Universe.default) 0).render.1.values.get? 0 =
      some ((pyInt (270 / 540 * 255) : ℤ) : ℚ)))
    ∧ pyInt (450 / 540 * 255) = 212 ∧ pyInt (270 / 540 * 255) = 127 := by
  refine ⟨⟨?_, ?_⟩, ?_, ?_⟩ <;>
    norm_num [GenericChineseMovingHead10ch.set_pan,
      GenericChineseMovingHead10ch.render, mkGenericMH, pan_lower_dmx,
      pan_range_dmx, pyInt, List.replicate, List.set]
/-- C3 (amended): the stored `strobe_value` of `FixtureBase` is order
independent across two `set_strobe` calls and equals `max(a, b)` from a
begun state (for nonnegative `a`, `b`), with `begin()` resetting it to 0;
the same holds for the inherited `strobe_value` of the moving head.  The
strobe channel state of the moving head, `_strobe_dmx`, however, is
last-write-wins — after `set_strobe(a); set_strobe(b)` it is
`dmx_clamp(b)` — and `begin()` leaves it unchanged, so the claimed order
independence does not extend to the channel state. -/
theorem C3_strobe_semantics (f : FixtureBase)
    (s : GenericChineseMovingHead10ch) (a b : ℚ)
    (ha : 0 ≤ a) (hb : 0 ≤ b) :
    ((f.begin.set_strobe a).set_strobe b).strobe_value = max a b
    ∧ ((f.begin.set_strobe b).set_strobe a).strobe_value = max a b
    ∧ ((f.set_strobe a).set_strobe b).strobe_value
        = ((f.set_strobe b).set_strobe a).strobe_value
    ∧ (FixtureBase.begin f).strobe_value = 0
    ∧ ((s.set_strobe a).set_strobe b).strobe_value
        = ((s.set_strobe b).set_strobe a).strobe_value
    ∧ ((s.set_strobe a).set_strobe b).strobe_dmx = dmx_clamp b
    ∧ ((s.set_strobe b).set_strobe a).strobe_dmx = dmx_clamp a
    ∧ (GenericChineseMovingHead10ch.begin s).strobe_dmx = s.strobe_dmx := by
  refine ⟨?_, ?_, ?_, rfl, ?_, rfl, rfl, rfl⟩
  · simp only [FixtureBase.begin, FixtureBase.set_strobe]
    rw [max_eq_right ha]
  · simp only [FixtureBase.begin, FixtureBase.set_strobe]
    rw [max_eq_right hb, max_comm b a]
  · simp only [FixtureBase.set_strobe]
    rw [max_assoc, max_comm a b, ← max_assoc]
  · simp only [GenericChineseMovingHead10ch.set_strobe]
    rw [max_assoc, max_comm a b, ← max_assoc]

theorem C3_witness :
    ((((mkFixtureBase 1 1 Universe.default).begin.set_strobe 10).set_strobe 5).strobe_value
      = max 10 5)
    ∧ (((mkGenericMH 1 Universe.default).set_strobe 10).set_strobe 5).strobe_dmx
      = dmx_clamp 5 := by
  have h := C3_strobe_semantics (mkFixtureBase 1 1 Universe.default)
    (mkGenericMH 1 Universe.default) 10 5 (by norm_num) (by norm_num)
  exact ⟨h.1, h.2.2.2.2.2.1⟩

theorem C3_counterexample :
    (((mkGenericMH 1 Universe.default).set_strobe 10).set_strobe 5).strobe_dmx ≠
      (((mkGenericMH 1 Universe.default).set_strobe 5).set_strobe 10).strobe_dmx := by
  norm_num [GenericChineseMovingHead10ch.set_strobe, mkGenericMH, dmx_clamp,
    clampQ, pyInt, min_def, max_def]
/-- C8: for every gobo name absent from the gobo-wheel table, `set_gobo`
fails with the `ValueError`-style error and mutates nothing: the raise
occurs before any assignment in the source, which the embedding reflects
by producing an error and no successor state, so the gobo channel and
current-gobo index are necessarily those of the state before the call. -/
theorem C8_unknown_gobo (s : GenericChineseMovingHead10ch) (g : String)
    (speed : ℚ) (h : g ∉ GOBO_WHEEL_ENTRIES.map GoboWheelEntry.name) :
    GenericChineseMovingHead10ch.set_gobo s g speed =
      Except.error ("Gobo " ++ g ++ " not found") := by
  have hfind : GOBO_WHEEL_ENTRIES.find? (fun e => e.name = g) = none := by
    rw [List.find?_eq_none]
    intro e he
    simp only [decide_eq_true_eq]
    intro heq
    exact h (heq ▸ List.mem_map_of_mem GoboWheelEntry.name he)
  simp [GenericChineseMovingHead10ch.set_gobo, hfind]

theorem C8_witness :
    GenericChineseMovingHead10ch.set_gobo (mkGenericMH 1 Universe.default)
      "unknown" 0 = Except.error ("Gobo " ++ "unknown" ++ " not found") :=
  C8_unknown_gobo (mkGenericMH 1 Universe.default) "unknown" 0 (by decide)

/-- The initial `dmx_data` buffer of an `ArtNetController`: `[0] * 512`. -/
def artnetInitData : List ℤ := List.replicate 512 0

/-- `ArtNetController.set_channel` from `parrot/utils/dmx_utils.py`:
channels are 1-indexed DMX and 0-indexed into the buffer; writes outside
1–512 are silently dropped; the `universe` argument is accepted for
compatibility but unused. -/
def ArtNetController.set_channel (dmx_data : List ℤ) (channel : ℤ)
    (value : ℚ) (_univ : Option Universe) : List ℤ :=
  if 1 ≤ channel ∧ channel ≤ 512 then
    dmx_data.set (channel - 1).toNat (pyInt value)
  else dmx_data

/-- C9: on a 512-slot buffer, `set_channel(c, v, universe)` writes
`int(v)` into slot `c - 1` and leaves every other slot unchanged when
`1 ≤ c ≤ 512`; for any other channel the buffer is unchanged and no
error is raised (the function is total); both outcomes are independent
of the `universe` argument. -/
theorem C9_set_channel (dmx_data : List ℤ) (channel : ℤ) (value : ℚ)
    (u u2 : Option Universe) (hlen : dmx_data.length = 512) :
    (1 ≤ channel ∧ channel ≤ 512 →
      (ArtNetController.set_channel dmx_data channel value u).get?
          (channel - 1).toNat = some (pyInt value)
      ∧ ∀ j : ℕ, j ≠ (channel - 1).toNat →
        (ArtNetController.set_channel dmx_data channel value u).get? j
          = dmx_data.get? j)
    ∧ (¬ (1 ≤ channel ∧ channel ≤ 512) →
      ArtNetController.set_channel dmx_data channel value u = dmx_data)
    ∧ ArtNetController.set_channel dmx_data channel value u
        = ArtNetController.set_channel dmx_data channel value u2 := by
  refine ⟨?_, ?_, rfl⟩
  · intro hin
    constructor
    · rw [ArtNetController.set_channel, if_pos hin]
      exact List.get?_set_eq_of_lt _ (by omega)
    · intro j hj
      rw [ArtNetController.set_channel, if_pos hin]
      exact List.get?_set_ne _ _ (fun hcontra => hj hcontra.symm)
  · intro hout
    rw [ArtNetController.set_channel, if_neg hout]

theorem C9_witness :
    ((ArtNetController.set_channel artnetInitData 5 7 none).get? 4
      = some (pyInt 7))
    ∧ ArtNetController.set_channel artnetInitData 0 7 none = artnetInitData
    ∧ ArtNetController.set_channel artnetInitData 513 7 none = artnetInitData := by
  have h1 := C9_set_channel artnetInitData 5 7 none none (by rw [artnetInitData]; exact List.length_replicate 512 0)
  have h2 := C9_set_channel artnetInitData 0 7 none none (by rw [artnetInitData]; exact List.length_replicate 512 0)
  have h3 := C9_set_channel artnetInitData 513 7 none none (by rw [artnetInitData]; exact List.length_replicate 512 0)
  refine ⟨?_, h2.2.1 (by norm_num), h3.2.1 (by norm_num)⟩
  have h4 := (h1.1 (by norm_num)).1
  simpa using h4
/-- State of a `FixtureGroup` (`parrot/fixtures/base.py`): the inherited
`FixtureBase` aggregate state plus the member list.  Member fixtures are
modelled as `FixtureBase` states (every concrete fixture class stores
its logical color/dimmer/strobe intent through these same inherited
setters).  The auto-generated group name (Python type introspection) is
not modelled. -/
structure FixtureGroup where
  address : ℤ
  width : ℕ
  univ : Universe
  values : List ℚ
  color_value : PColor
  dimmer_value : ℚ
  strobe_value : ℚ
  speed_value : ℚ
  fixtures : List FixtureBase
  deriving DecidableEq

/-- `FixtureGroup.__init__`: an empty member list raises
`ValueError("FixtureGroup must contain at least one fixture")`; otherwise
the group address is the minimum member address, the width the sum of the
member widths, and the inherited state is initialised as by
`FixtureBase.__init__`. -/
def mkFixtureGroup (fixtures : List FixtureBase) (univ : Universe) :
    Except String FixtureGroup :=
  match fixtures with
  | [] => Except.error "FixtureGroup must contain at least one fixture"
  | f :: rest =>
    let address := rest.foldl (fun m x => min m x.address) f.address
    let width := ((f :: rest).map FixtureBase.width).sum
    Except.ok
      { address := address
        width := width
        univ := univ
        values := List.replicate width 0
        color_value := PColor.black
        dimmer_value := 0
        strobe_value := 0
        speed_value := 0
        fixtures := f :: rest }

/-- `FixtureGroup.set_color`: store on the group (the inherited base
behavior) and broadcast to every member. -/
def FixtureGroup.set_color (g : FixtureGroup) (color : PColor) : FixtureGroup :=
  { g with color_value := color
           fixtures := g.fixtures.map (fun f => f.set_color color) }

/-- `FixtureGroup.get_color` (inherited from `FixtureBase`). -/
def FixtureGroup.get_color (g : FixtureGroup) : PColor := g.color_value

/-- `FixtureGroup.set_dimmer`: store on the group and broadcast. -/
def FixtureGroup.set_dimmer (g : FixtureGroup) (value : ℚ) : FixtureGroup :=
  { g with dimmer_value := value
           fixtures := g.fixtures.map (fun f => f.set_dimmer value) }

/-- `FixtureGroup.set_strobe`: inherited max-combine on the group state,
broadcast to members. -/
def FixtureGroup.set_strobe (g : FixtureGroup) (value : ℚ) : FixtureGroup :=
  { g with strobe_value := max g.strobe_value value
           fixtures := g.fixtures.map (fun f => f.set_strobe value) }

/-- `FixtureGroup.begin`: inherited strobe reset plus member resets. -/
def FixtureGroup.begin (g : FixtureGroup) : FixtureGroup :=
  { g with strobe_value := 0
           fixtures := g.fixtures.map FixtureBase.begin }

/-- `FixtureGroup.render`: each member renders itself in order (the
own aggregate value array of the group is not used). -/
def FixtureGroup.render (g : FixtureGroup) : List DmxEvent :=
  (g.fixtures.map FixtureBase.render).flatten

/-- State of a `ManualGroup` (`parrot/fixtures/base.py`): the group
state plus the 0–1 manual dimmer.  The `parent_group` back-reference
written onto the members is informational only and is not modelled. -/
structure ManualGroup where
  group : FixtureGroup
  manual_dimmer : ℚ
  deriving DecidableEq

/-- `ManualGroup.__init__`: delegates to the group constructor (so the
empty-list `ValueError` propagates), sets `manual_dimmer = 0` and
defaults every member to white. -/
def mkManualGroup (fixtures : List FixtureBase) (univ : Universe) :
    Except String ManualGroup :=
  match mkFixtureGroup fixtures univ with
  | Except.error e => Except.error e
  | Except.ok g =>
    let fixtures2 := g.fixtures.map (fun f => f.set_color PColor.white)
    Except.ok { group := { g with fixtures := fixtures2 }, manual_dimmer := 0 }

/-- `ManualGroup.set_manual_dimmer`: store the 0–1 value, scale to 0–255
and store it as the group dimmer, broadcast `set_dimmer` to every
member, and for width-1 members additionally write `int(dimmer_255)`
directly into the sole channel value. -/
def ManualGroup.set_manual_dimmer (m : ManualGroup) (value : ℚ) : ManualGroup :=
  let dimmer_255 := value * 255
  { manual_dimmer := value
    group := { m.group with
      dimmer_value := dimmer_255
      fixtures := m.group.fixtures.map (fun f =>
        let f := f.set_dimmer dimmer_255
        if f.width = 1 then
          { f with values := f.values.set 0 ((pyInt dimmer_255 : ℤ) : ℚ) }
        else f) } }

/-- `ManualGroup.get_dimmer`: overridden to report `manual_dimmer * 255`. -/
def ManualGroup.get_dimmer (m : ManualGroup) : ℚ := m.manual_dimmer * 255

/-- `ManualGroup.render`: re-apply the scaled manual dimmer to every
member (writing the sole channel of width-1 members), then render the
group normally. -/
def ManualGroup.render (m : ManualGroup) : ManualGroup × List DmxEvent :=
  let dimmer_255 := m.manual_dimmer * 255
  let fixtures := m.group.fixtures.map (fun f =>
    let f := { f with dimmer_value := dimmer_255 }
    if f.width = 1 then
      { f with values := f.values.set 0 ((pyInt dimmer_255 : ℤ) : ℚ) }
    else f)
  let m2 := { m with group := { m.group with fixtures := fixtures } }
  (m2, m2.group.render)
/-- C6: for every non-empty member list, the address of the constructed group
is the minimum of the member addresses (it is a lower bound and is
attained) and its width is the sum of the member widths; after
`set_color(c)` on the group, `get_color` on the group and on every
member returns `c`. -/
theorem C6_group_aggregate (fixtures : List FixtureBase) (u : Universe)
    (c : PColor) (h : fixtures ≠ []) :
    ∃ g, mkFixtureGroup fixtures u = Except.ok g
      ∧ (∀ f ∈ fixtures, g.address ≤ f.address)
      ∧ (∃ f ∈ fixtures, g.address = f.address)
      ∧ g.width = (fixtures.map FixtureBase.width).sum
      ∧ (g.set_color c).get_color = c
      ∧ ∀ f ∈ (g.set_color c).fixtures, f.get_color = c := by
  match fixtures, h with
  | f :: rest, _ =>
    refine ⟨_, rfl, ?_, ?_, rfl, rfl, ?_⟩
    · intro x hx
      rcases List.mem_cons.mp hx with hx | hx
      · subst hx
        exact foldl_min_le_init FixtureBase.address rest x.address
      · exact foldl_min_le_mem FixtureBase.address rest f.address x hx
    · rcases foldl_min_attained FixtureBase.address rest f.address with hmin | ⟨x, hx, hmin⟩
      · exact ⟨f, List.mem_cons_self f rest, hmin⟩
      · exact ⟨x, List.mem_cons_of_mem f hx, hmin⟩
    · intro x hx
      simp only [FixtureGroup.set_color, List.mem_map] at hx
      obtain ⟨f0, _, rfl⟩ := hx
      rfl

theorem C6_witness :
    ∃ g, mkFixtureGroup
        [mkFixtureBase 5 2 Universe.default, mkFixtureBase 10 3 Universe.default,
         mkFixtureBase 3 1 Universe.default] Universe.default = Except.ok g
      ∧ g.address = 3 ∧ g.width = 6
      ∧ (g.set_color PColor.red).get_color = PColor.red
      ∧ ∀ f ∈ (g.set_color PColor.red).fixtures, f.get_color = PColor.red := by
  obtain ⟨g, hg, hle, hat, hw, hc, hm⟩ :=
    C6_group_aggregate
      [mkFixtureBase 5 2 Universe.default, mkFixtureBase 10 3 Universe.default,
       mkFixtureBase 3 1 Universe.default] Universe.default PColor.red (by simp)
  refine ⟨g, hg, ?_, ?_, hc, hm⟩
  · have h3 := hle (mkFixtureBase 3 1 Universe.default) (by simp)
    simp only [mkFixtureBase] at h3
    obtain ⟨f, hf, heq⟩ := hat
    simp only [List.mem_cons, List.not_mem_nil, or_false] at hf
    rcases hf with hf | hf | hf <;> subst hf <;>
      simp only [mkFixtureBase] at heq <;> omega
  · simpa [mkFixtureBase] using hw

/-- C7: constructing a `FixtureGroup` (and hence a `ManualGroup`) from
an empty fixture list always fails with the `ValueError`-style error;
construction never succeeds with zero members. -/
theorem C7_empty_group (fixtures : List FixtureBase) (u : Universe)
    (h : fixtures = []) :
    mkFixtureGroup fixtures u
        = Except.error "FixtureGroup must contain at least one fixture"
    ∧ mkManualGroup fixtures u
        = Except.error "FixtureGroup must contain at least one fixture"
    ∧ ∀ g, mkFixtureGroup fixtures u ≠ Except.ok g := by
  subst h
  refine ⟨rfl, rfl, ?_⟩
  intro g hg
  exact Except.noConfusion hg

theorem C7_witness :
    mkFixtureGroup [] Universe.default
        = Except.error "FixtureGroup must contain at least one fixture"
    ∧ mkManualGroup [] Universe.default
        = Except.error "FixtureGroup must contain at least one fixture" :=
  ⟨(C7_empty_group [] Universe.default rfl).1,
   (C7_empty_group [] Universe.default rfl).2.1⟩
/-- C5: on a `ManualGroup` whose members all have width 1 (and hence a
single channel value), `set_manual_dimmer(v)` with `v` in `[0, 1]` makes
the sole channel value of every member `int(v * 255)` and the
`dimmer_value` of every member equal to `v * 255`, and `get_dimmer()` on the group then
returns `v * 255` rather than the inherited accumulated dimmer. -/
theorem C5_manual_dimmer (m : ManualGroup) (v : ℚ)
    (_hvr : 0 ≤ v ∧ v ≤ 1)
    (hw : ∀ f ∈ m.group.fixtures, f.width = 1 ∧ f.values.length = 1) :
    (∀ f ∈ (m.set_manual_dimmer v).group.fixtures,
        f.values = [((pyInt (v * 255) : ℤ) : ℚ)] ∧ f.dimmer_value = v * 255)
    ∧ (m.set_manual_dimmer v).get_dimmer = v * 255 := by
  constructor
  · intro f hf
    simp only [ManualGroup.set_manual_dimmer, List.mem_map] at hf
    obtain ⟨f0, hf0, rfl⟩ := hf
    obtain ⟨hw0, hl0⟩ := hw f0 hf0
    have hwset : (f0.set_dimmer (v * 255)).width = 1 := hw0
    obtain ⟨a, ha⟩ := List.length_eq_one.mp hl0
    have hvals : (f0.set_dimmer (v * 255)).values = [a] := ha
    simp only [if_pos hwset, hvals, List.set]
    exact ⟨trivial, rfl⟩
  · rfl

/-- A concrete two-member width-1 manual group: exactly the state
`ManualGroup.__init__` produces for two one-channel fixtures at
addresses 240 and 260 (see `C5_witness`, which checks this equality). -/
def manualGroupEx : ManualGroup :=
  { group :=
      { address := 240
        width := 2
        univ := Universe.default
        values := List.replicate 2 0
        color_value := PColor.black
        dimmer_value := 0
        strobe_value := 0
        speed_value := 0
        fixtures := [(mkFixtureBase 240 1 Universe.default).set_color PColor.white,
                     (mkFixtureBase 260 1 Universe.default).set_color PColor.white] }
    manual_dimmer := 0 }

theorem C5_witness :
    mkManualGroup [mkFixtureBase 240 1 Universe.default,
        mkFixtureBase 260 1 Universe.default] Universe.default
      = Except.ok manualGroupEx
    ∧ (∀ f ∈ (manualGroupEx.set_manual_dimmer (1 / 2)).group.fixtures,
        f.values = [(127 : ℚ)] ∧ f.dimmer_value = (1 / 2) * 255)
    ∧ (manualGroupEx.set_manual_dimmer (1 / 2)).get_dimmer = 255 / 2 := by
  have h := C5_manual_dimmer manualGroupEx (1 / 2)
    ⟨by norm_num, by norm_num⟩
    (by
      intro f hf
      simp only [manualGroupEx, mkFixtureBase, FixtureBase.set_color,
        List.mem_cons, List.not_mem_nil, or_false] at hf
      rcases hf with hf | hf <;> subst hf <;> exact ⟨rfl, rfl⟩)
  have hpy : ((pyInt ((1 / 2) * 255) : ℤ) : ℚ) = 127 := by
    norm_num [pyInt]
  refine ⟨?_, ?_, ?_⟩
  · rfl
  · intro f hf
    obtain ⟨h1, h2⟩ := h.1 f hf
    rw [hpy] at h1
    exact ⟨h1, h2⟩
  · rw [h.2]
    norm_num
/-- C10 (implicit invariant): the constructors establish
`len(values) = width` (the width of the moving head is 10), and every public
operation of every fixture class in the excerpt preserves the length of
the per-channel value array — so the indexing of the render loop never goes
out of bounds. -/
theorem C10_length_invariant (a : ℤ) (w : ℕ) (u : Universe)
    (f : FixtureBase) (s : GenericChineseMovingHead10ch) (c : PColor)
    (d : PColor → PColor → ℚ) (v : ℚ) (g : String)
    (m : ManualGroup) (grp : FixtureGroup) :
    (mkFixtureBase a w u).values.length = w
    ∧ (mkGenericMH a u).values.length = 10
    ∧ f.begin.values.length = f.values.length
    ∧ (f.set_color c).values.length = f.values.length
    ∧ (f.set_dimmer v).values.length = f.values.length
    ∧ (f.set_strobe v).values.length = f.values.length
    ∧ (f.set_pan v).values.length = f.values.length
    ∧ (f.set_tilt v).values.length = f.values.length
    ∧ (f.set_speed v).values.length = f.values.length
    ∧ s.begin.values.length = s.values.length
    ∧ (GenericChineseMovingHead10ch.set_color d s c).values.length = s.values.length
    ∧ (s.set_dimmer v).values.length = s.values.length
    ∧ (s.set_strobe v).values.length = s.values.length
    ∧ (s.set_speed v).values.length = s.values.length
    ∧ (s.set_pan v).values.length = s.values.length
    ∧ (s.set_tilt v).values.length = s.values.length
    ∧ (s.set_auto_mode v).values.length = s.values.length
    ∧ (s.set_auto_swivel v).values.length = s.values.length
    ∧ (s.set_led_ring v).values.length = s.values.length
    ∧ (∀ t, s.set_gobo g v = Except.ok t → t.values.length = s.values.length)
    ∧ s.render.1.values.length = s.values.length
    ∧ (grp.set_color c).fixtures.map (fun x => x.values.length)
        = grp.fixtures.map (fun x => x.values.length)
    ∧ (m.set_manual_dimmer v).group.fixtures.map (fun x => x.values.length)
        = m.group.fixtures.map (fun x => x.values.length)
    ∧ m.render.1.group.fixtures.map (fun x => x.values.length)
        = m.group.fixtures.map (fun x => x.values.length) := by
  refine ⟨List.length_replicate w 0, rfl, rfl, rfl, rfl, rfl, rfl, rfl, rfl,
    rfl, rfl, rfl, rfl, rfl, rfl, rfl, rfl, rfl, rfl, ?_, ?_, ?_, ?_, ?_⟩
  · intro t ht
    rw [GenericChineseMovingHead10ch.set_gobo] at ht
    split at ht
    · exact Except.noConfusion ht
    · split at ht
      · dsimp only at ht
        split at ht <;> (cases ht; rfl)
      · dsimp only at ht
        cases ht; rfl
  · simp [GenericChineseMovingHead10ch.render, List.length_set]
  · simp only [FixtureGroup.set_color, List.map_map]
    rfl
  · simp only [ManualGroup.set_manual_dimmer, List.map_map]
    apply List.map_congr_left
    intro x _
    by_cases hx : x.width = 1
    · simp [Function.comp, FixtureBase.set_dimmer, hx, List.length_set]
    · simp [Function.comp, FixtureBase.set_dimmer, hx]
  · simp only [ManualGroup.render, List.map_map]
    apply List.map_congr_left
    intro x _
    by_cases hx : x.width = 1
    · simp [Function.comp, hx, List.length_set]
    · simp [Function.comp, hx]

theorem C10_witness :
    (mkFixtureBase 1 3 Universe.default).values.length = 3
    ∧ (mkGenericMH 1 Universe.default).values.length = 10 := by
  have h := C10_length_invariant 1 3 Universe.default
    (mkFixtureBase 1 3 Universe.default) (mkGenericMH 1 Universe.default)
    PColor.red dEx 5 "open" manualGroupEx manualGroupEx.group
  exact ⟨h.1, h.2.1⟩

end PartyParrot
